import Mathlib

/-!
# TdBridge: a verification development

Shallow embedding of `macos-client/TelegramClient/Bridge/TdBridge.{h,cpp}`.

* A `std::string` is a Lean `String`.
* The engine (`td::ClientManager`) is external.  Its side of the conversation is a record of
  what the bridge asked of it (`sent`, `executed`, `polls`); what it answers is supplied to the
  embedded functions as an argument (the `response.object` of a call, or the thrown
  `std::exception`).
* `std::function` callbacks are opaque: a callback is an identifier and calling it is recorded
  in `invoked`.
* Dereferencing a null `clientManager` inside the loop is undefined behaviour: the loop is a
  function into `Option` and such a step is `none`.

There are two descriptions, the second built on the first.

* `receiverLoopBody`, `receiverLoop`, `step`, `run` describe the bridge when the engine
  throws nothing but `std::exception` and the callback returns without calling back into the
  bridge.  The receiver thread and the callers are interleaved at the granularity of one
  loop iteration (`while` test followed by the body) and one public call.
* `cycle`, `Machine.step`, `Machine.run`, `Machine.loop` add what foreign code can do (a
  throw of any type from the poll or from the callback, calls made by the callback on the
  bridge) and the position of the receiver thread in its loop, the `while` test and the body
  being separate steps, so that `join` in `Machine.shutdown` waits for the iteration under
  way.
-/

namespace TdBridge

/-! ## Strings -/

/-- Search used by `std::string::find(const char*)`: position of the first occurrence of
`needle` in `hay`, `none` standing for `std::string::npos`. -/
def findChars (needle : List Char) : List Char → Option Nat
  | [] => if needle.isPrefixOf [] then some 0 else none
  | c :: cs =>
    if needle.isPrefixOf (c :: cs) then some 0
    else (findChars needle cs).map (· + 1)

/-- The call `s.find(needle)`. -/
def find (s needle : String) : Option Nat :=
  findChars needle.data s.data

/-- The value `std::string::npos`. -/
def npos : Option Nat := none

/-- The payload `s` contains `marker` as a contiguous substring. -/
def Contains (s marker : String) : Prop :=
  List.IsInfix marker.data s.data

/-! ## Data model -/

/-- Identity of a registered `std::function<void(const std::string&)>`. -/
abbrev Callback := Nat

/-- The engine object behind `std::shared_ptr<td::ClientManager>`: the requests it has been
given so far. -/
structure ClientManager where
  /-- Arguments of the `send(clientId, query)` calls, oldest first. -/
  sent : List (Int × String)
  /-- Arguments of the `execute(query)` calls, oldest first. -/
  executed : List String
  /-- Number of `receive(timeout_ms)` calls made on the engine, by the receiver loop or
  through the public `TdBridge::receive`. -/
  polls : Nat
  deriving DecidableEq, Repr

/-- The object behind `std::unique_ptr<std::thread>`. -/
structure Thread where
  joinable : Bool
  deriving DecidableEq, Repr

/-- The class `TdBridge` (its data members), followed by the effects it has had on the
outside world. -/
structure Bridge where
  clientManager : Option ClientManager
  clientId : Int
  authorized : Bool
  currentAuthState : String
  updateCallback : Option Callback
  receiverThread : Option Thread
  shouldRun : Bool
  /-- Calls made to a registered callback: which one, with which argument; oldest first. -/
  invoked : List (Callback × String)
  /-- Lines written to `std::cerr`. -/
  cerr : List String
  /-- Number of `receiverThread->join()` calls performed. -/
  joins : Nat
  deriving DecidableEq, Repr

/-- What one `clientManager->receive(timeout_ms)` of the receiver loop does when all goes
as the loop's `catch (const std::exception& e)` expects: it returns a response whose `object`
is set, returns one whose `object` is not set, or throws a `std::exception` with the given
`what()`.  A throw of another type is `Cycle.pollThrowsOther` below. -/
inductive PollOutcome where
  | payload (update : String)
  | empty
  | error (what : String)
  deriving DecidableEq, Repr

/-! ## Operations -/

/-- The constructor `TdBridge::TdBridge()`; `createdId` is what `create_client_id()` returns.
Members not assigned there keep their in-class initialisers. -/
def construct (createdId : Int) : Bridge :=
  { clientManager := some { sent := [], executed := [], polls := 0 }
    clientId := createdId
    authorized := false
    currentAuthState := ""
    updateCallback := none
    receiverThread := some { joinable := true }
    shouldRun := true
    invoked := []
    cerr := []
    joins := 0 }

/-- The method `TdBridge::shutdown`.  `join` returns once the loop has left; the loop
iteration that is under way when the flag is cleared, if any, is an iteration that comes
before this call in the interleaving. -/
def shutdown (b : Bridge) : Bridge :=
  let b1 := { b with shouldRun := false }
  match b1.receiverThread with
  | some t =>
    if t.joinable then
      { b1 with receiverThread := some { t with joinable := false }, joins := b1.joins + 1 }
    else b1
  | none => b1

/-- The method `TdBridge::send`: the returned `int` and the bridge afterwards. -/
def send (query : String) (b : Bridge) : Int × Bridge :=
  match b.clientManager with
  | none => (-1, b)
  | some cm =>
    (b.clientId,
      { b with clientManager := some { cm with sent := cm.sent ++ [(b.clientId, query)] } })

/-- The method `TdBridge::execute`; `response` is the `object` of the engine's answer. -/
def execute (query : String) (response : Option String) (b : Bridge) : String × Bridge :=
  match b.clientManager with
  | none => ("", b)
  | some cm =>
    let b1 := { b with clientManager := some { cm with executed := cm.executed ++ [query] } }
    match response with
    | some object => (object, b1)
    | none => ("", b1)

/-- The public method `TdBridge::receive`; `response` is the `object` of the engine's answer.
The timeout only bounds how long the engine waits before it answers.  The method does not
look at `shouldRun`. -/
def receive (response : Option String) (b : Bridge) : String × Bridge :=
  match b.clientManager with
  | none => ("", b)
  | some cm =>
    let b1 := { b with clientManager := some { cm with polls := cm.polls + 1 } }
    match response with
    | some object => (object, b1)
    | none => ("", b1)

/-- The method `TdBridge::setUpdateCallback`; an empty `std::function` is `none`. -/
def setUpdateCallback (callback : Option Callback) (b : Bridge) : Bridge :=
  { b with updateCallback := callback }

/-- The method `TdBridge::isAuthorized`. -/
def isAuthorized (b : Bridge) : Bool :=
  b.authorized

/-- The method `TdBridge::getAuthorizationState`. -/
def getAuthorizationState (b : Bridge) : String :=
  b.currentAuthState

/-- The method `TdBridge::handleUpdate`: the call of the callback, if one is registered, is
recorded.  What the callback itself then does (calls on the bridge, a throw) is added by
`runCallback` and `cycle` below. -/
def handleUpdate (update : String) (b : Bridge) : Bridge :=
  match b.updateCallback with
  | some cb => { b with invoked := b.invoked ++ [(cb, update)] }
  | none => b

/-- One iteration of the `while` body of `TdBridge::receiverLoop` (the `try` block and its
`catch`), the poll doing what `o` says. -/
def receiverLoopBody (o : PollOutcome) (b : Bridge) : Option Bridge :=
  match b.clientManager with
  | none => none
  | some cm =>
    let b1 := { b with clientManager := some { cm with polls := cm.polls + 1 } }
    match o with
    | PollOutcome.payload update =>
      let b2 :=
        if find update "authorizationStateReady" != npos then
          { b1 with authorized := true, currentAuthState := "ready" }
        else if find update "authorizationState" != npos then
          { b1 with currentAuthState := update }
        else b1
      some (handleUpdate update b2)
    | PollOutcome.empty => some b1
    | PollOutcome.error what =>
      some { b1 with cerr := b1.cerr ++ ["Error in receiver loop: " ++ what] }

/-- The method `TdBridge::receiverLoop`, run against the outcomes of the polls the engine
still answers.  The loop leaves as soon as it reads `shouldRun` as false; with the outcomes
used up the result is the bridge as the loop has left it so far. -/
def receiverLoop : List PollOutcome → Bridge → Option Bridge
  | [], b => some b
  | o :: rest, b =>
    if b.shouldRun then
      match receiverLoopBody o b with
      | some b1 => receiverLoop rest b1
      | none => none
    else some b

/-! ## Interleaving of the receiver thread with the callers -/

/-- One step of the whole object: the receiver thread attempts an iteration of its loop
(test and body), or a caller thread makes a public call. -/
inductive Event where
  | poll (o : PollOutcome)
  | send (query : String)
  | execute (query : String) (response : Option String)
  | receive (response : Option String)
  | setUpdateCallback (callback : Option Callback)
  | shutdown
  deriving DecidableEq, Repr

/-- Effect of one event on the bridge. -/
def step (e : Event) (b : Bridge) : Option Bridge :=
  match e with
  | Event.poll o => receiverLoop [o] b
  | Event.send q => some (send q b).2
  | Event.execute q r => some (execute q r b).2
  | Event.receive r => some (receive r b).2
  | Event.setUpdateCallback cb => some (setUpdateCallback cb b)
  | Event.shutdown => some (shutdown b)

/-- Effect of a sequence of events, oldest first. -/
def run : List Event → Bridge → Option Bridge
  | [], b => some b
  | e :: es, b =>
    match step e b with
    | some b1 => run es b1
    | none => none

/-- Payloads among poll outcomes, in order. -/
def payloads : List PollOutcome → List String
  | [] => []
  | PollOutcome.payload u :: rest => u :: payloads rest
  | _ :: rest => payloads rest

/-- Whether a payload contains a marker can be computed. -/
instance instDecidableContains (s marker : String) : Decidable (Contains s marker) :=
  inferInstanceAs (Decidable (List.IsInfix marker.data s.data))

/-- The bridge of the spec's example: freshly constructed with client id 1, callback 0
registered. -/
def registered : Bridge :=
  setUpdateCallback (some 0) (construct 1)

/-! ## The receiver thread at work: position in the loop, foreign code

The definitions above describe the bridge when the engine only ever throws a
`std::exception` and the callback returns without calling back into the bridge.  The ones
below lift both restrictions and place the receiver thread in its loop, so that `join` has
something to wait for.  A callback is described by what it has done by the time it ends; a
callback that never ends (for one, by calling `setUpdateCallback`, which would lock
`callbackMutex` a second time) is not described. -/

/-- What a `throw` carries, as far as `catch (const std::exception& e)` tells things apart. -/
inductive Thrown where
  | exception (what : String)
  | other
  deriving DecidableEq, Repr

/-- How a call of the registered callback ends. -/
inductive Completion where
  | returned
  | threw (t : Thrown)
  deriving DecidableEq, Repr

/-- A public call made on the bridge by the callback while it runs, that is on the receiver
thread. -/
inductive Call where
  | send (query : String)
  | execute (query : String) (response : Option String)
  | receive (response : Option String)
  | shutdown
  deriving DecidableEq, Repr

/-- Effect on the bridge of a call made from inside the callback.  `shutdown()` called there
clears `shouldRun` and then has the receiver thread join itself, which `std::thread::join`
refuses with a `std::system_error`: no join takes place. -/
def Call.effect (c : Call) (b : Bridge) : Bridge :=
  match c with
  | Call.send q => (TdBridge.send q b).2
  | Call.execute q r => (TdBridge.execute q r b).2
  | Call.receive r => (TdBridge.receive r b).2
  | Call.shutdown => { b with shouldRun := false }

/-- What one call of the registered callback does: the calls it makes on the bridge, in
order, and how it ends. -/
structure CallbackRun where
  calls : List Call
  ends : Completion
  deriving DecidableEq, Repr

/-- What happens in one iteration of the loop body: the poll behaves as `o` and the callback,
if it gets called, as `cb`; or the poll throws something that is not a `std::exception`. -/
inductive Cycle where
  | polled (o : PollOutcome) (cb : CallbackRun)
  | pollThrowsOther
  deriving DecidableEq, Repr

/-- The call `updateCallback(update)` inside `handleUpdate`, seen from the loop's `try`
block: the bridge afterwards, and whether a throw has left the `try` block uncaught.  A
`std::exception` is caught and logged by the loop's `catch`. -/
def runCallback (cb : CallbackRun) (b : Bridge) : Bool × Bridge :=
  let b1 := cb.calls.foldl (fun acc c => c.effect acc) b
  match cb.ends with
  | Completion.returned => (false, b1)
  | Completion.threw (Thrown.exception what) =>
    (false, { b1 with cerr := b1.cerr ++ ["Error in receiver loop: " ++ what] })
  | Completion.threw Thrown.other => (true, b1)

/-- One iteration of the `while` body of `TdBridge::receiverLoop` with foreign code taken
into account: the bridge afterwards, and whether a throw has escaped the `catch`.  Poll,
tracking and the call of the callback are those of `receiverLoopBody`; what the callback
itself does comes on top. -/
def cycle (c : Cycle) (b : Bridge) : Option (Bool × Bridge) :=
  match c with
  | Cycle.pollThrowsOther =>
    match b.clientManager with
    | none => none
    | some cm => some (true, { b with clientManager := some { cm with polls := cm.polls + 1 } })
  | Cycle.polled o cb =>
    match receiverLoopBody o b with
    | none => none
    | some b1 =>
      match o, b.updateCallback with
      | PollOutcome.payload _, some _ => some (runCallback cb b1)
      | _, _ => some (false, b1)

/-- Where the receiver thread is: about to evaluate `while (shouldRun)`; inside the body,
the test having read true; out of the loop, its function having returned; or gone, a throw
having left its function, which ends the process (`std::terminate`). -/
inductive LoopPos where
  | atTest
  | inBody
  | left
  | terminated
  deriving DecidableEq, Repr

/-- The bridge together with its receiver thread. -/
structure Machine where
  bridge : Bridge
  pos : LoopPos
  /-- Number of polls made by the receiver loop. -/
  loopPolls : Nat
  deriving DecidableEq, Repr

/-- The receiver thread evaluates `while (shouldRun)`. -/
def loopTest (m : Machine) : Machine :=
  match m.pos with
  | LoopPos.atTest =>
    { m with pos := if m.bridge.shouldRun then LoopPos.inBody else LoopPos.left }
  | _ => m

/-- The receiver thread runs the body once, if it is inside the loop. -/
def loopCycle (c : Cycle) (m : Machine) : Option Machine :=
  match m.pos with
  | LoopPos.inBody =>
    match cycle c m.bridge with
    | none => none
    | some (escaped, b1) =>
      some { bridge := b1
             pos := if escaped then LoopPos.terminated else LoopPos.atTest
             loopPolls := m.loopPolls + 1 }
  | _ => some m

/-- The call `receiverThread->join()` made by a caller thread once `shouldRun` is cleared:
the receiver thread runs on, finishing the iteration it is in (which behaves as `inflight`)
and evaluating the loop test, and the caller waits for that. -/
def join (inflight : Cycle) (m : Machine) : Option Machine :=
  match m.pos with
  | LoopPos.inBody => (loopCycle inflight m).map loopTest
  | _ => some (loopTest m)

/-- The method `TdBridge::shutdown` called on a caller thread while the receiver thread is
where `m.pos` says.  When the process ends during the join the call does not return and the
result is the machine in position `terminated`. -/
def Machine.shutdown (inflight : Cycle) (m : Machine) : Option Machine :=
  let m1 := { m with bridge := { m.bridge with shouldRun := false } }
  match m1.bridge.receiverThread with
  | some t =>
    if t.joinable then
      match join inflight m1 with
      | none => none
      | some m2 =>
        if m2.pos = LoopPos.terminated then some m2
        else
          some { m2 with
            bridge := { m2.bridge with
              receiverThread := some { t with joinable := false }
              joins := m2.bridge.joins + 1 } }
    else some m1
  | none => some m1

/-- One step of the machine: the receiver thread evaluates its loop test or runs the body,
or a caller thread makes a public call. -/
inductive Action where
  | loopTest
  | loopCycle (c : Cycle)
  | send (query : String)
  | execute (query : String) (response : Option String)
  | receive (response : Option String)
  | setUpdateCallback (callback : Option Callback)
  | shutdown (inflight : Cycle)
  deriving DecidableEq, Repr

/-- Effect of one action.  Nothing runs once the process has ended. -/
def Machine.step (a : Action) (m : Machine) : Option Machine :=
  if m.pos = LoopPos.terminated then some m
  else
    match a with
    | Action.loopTest => some (loopTest m)
    | Action.loopCycle c => loopCycle c m
    | Action.send q => some { m with bridge := (TdBridge.send q m.bridge).2 }
    | Action.execute q r => some { m with bridge := (TdBridge.execute q r m.bridge).2 }
    | Action.receive r => some { m with bridge := (TdBridge.receive r m.bridge).2 }
    | Action.setUpdateCallback cb =>
      some { m with bridge := TdBridge.setUpdateCallback cb m.bridge }
    | Action.shutdown c => Machine.shutdown c m

/-- Effect of a sequence of actions, oldest first. -/
def Machine.run : List Action → Machine → Option Machine
  | [], m => some m
  | a :: rest, m =>
    match Machine.step a m with
    | some m1 => Machine.run rest m1
    | none => none

lemma findChars_isSome_iff (needle hay : List Char) :
    (findChars needle hay).isSome = true ↔ List.IsInfix needle hay := by
  induction hay with
  | nil =>
    by_cases h : needle = []
    · subst h; simp [findChars]
    · simp [findChars, h]
  | cons c cs ih =>
    rw [List.infix_cons_iff]
    by_cases hp : needle.isPrefixOf (c :: cs) = true
    · have hp2 : List.IsPrefix needle (c :: cs) := List.isPrefixOf_iff_prefix.mp hp
      simp [findChars, hp, hp2]
    · have hp2 : ¬ List.IsPrefix needle (c :: cs) := fun h =>
        hp (List.isPrefixOf_iff_prefix.mpr h)
      simp only [findChars, hp, hp2, false_or, Option.isSome_map', ite_false,
        Bool.false_eq_true]
      exact ih

lemma find_ne_npos_iff (s marker : String) :
    (find s marker != npos) = true ↔ Contains s marker := by
  unfold Contains find npos
  rw [← findChars_isSome_iff]
  cases findChars marker.data s.data <;> simp

/-! ## Lemmas on one loop iteration -/

lemma receiverLoopBody_isSome (o : PollOutcome) (b : Bridge) (cm : ClientManager)
    (hcm : b.clientManager = some cm) : ∃ b1, receiverLoopBody o b = some b1 := by
  unfold receiverLoopBody
  rw [hcm]
  cases o <;> exact ⟨_, rfl⟩

lemma receiverLoopBody_frame (o : PollOutcome) (b b1 : Bridge)
    (h : receiverLoopBody o b = some b1) :
    b1.shouldRun = b.shouldRun ∧ b1.clientId = b.clientId ∧
    b1.updateCallback = b.updateCallback ∧ b1.receiverThread = b.receiverThread ∧
    b1.joins = b.joins ∧ (b.authorized = true → b1.authorized = true) ∧
    ∃ cm, b.clientManager = some cm ∧
      b1.clientManager = some { cm with polls := cm.polls + 1 } := by
  unfold receiverLoopBody at h
  cases hcm : b.clientManager with
  | none => rw [hcm] at h; cases h
  | some cm =>
    rw [hcm] at h
    cases o with
    | payload u =>
      simp only [Option.some.injEq] at h
      subst h
      unfold handleUpdate
      cases hcb : b.updateCallback <;> split_ifs <;> simp [hcb]
    | empty =>
      simp only [Option.some.injEq] at h
      subst h
      simp
    | error w =>
      simp only [Option.some.injEq] at h
      subst h
      simp

lemma receiverLoopBody_ready (u : String) (b b1 : Bridge)
    (hu : Contains u "authorizationStateReady")
    (h : receiverLoopBody (PollOutcome.payload u) b = some b1) :
    b1.authorized = true ∧ b1.currentAuthState = "ready" := by
  have hf := (find_ne_npos_iff u "authorizationStateReady").mpr hu
  unfold receiverLoopBody at h
  cases hcm : b.clientManager with
  | none => rw [hcm] at h; cases h
  | some cm =>
    rw [hcm] at h
    simp only [hf, ite_true, Option.some.injEq] at h
    subst h
    unfold handleUpdate
    cases hcb : b.updateCallback <;> simp [hcb]

lemma receiverLoopBody_intermediate (u : String) (b b1 : Bridge)
    (hs : Contains u "authorizationState") (hu : ¬ Contains u "authorizationStateReady")
    (h : receiverLoopBody (PollOutcome.payload u) b = some b1) :
    b1.authorized = b.authorized ∧ b1.currentAuthState = u := by
  have hf := (find_ne_npos_iff u "authorizationState").mpr hs
  have hn : ¬ (find u "authorizationStateReady" != npos) = true := fun h =>
    hu ((find_ne_npos_iff u "authorizationStateReady").mp h)
  unfold receiverLoopBody at h
  cases hcm : b.clientManager with
  | none => rw [hcm] at h; cases h
  | some cm =>
    rw [hcm] at h
    simp only [hf, hn, ite_true, ite_false, Option.some.injEq] at h
    subst h
    unfold handleUpdate
    cases hcb : b.updateCallback <;> simp [hcb]

lemma receiverLoopBody_invoked_payload (u : String) (b b1 : Bridge) (cb : Callback)
    (hcb : b.updateCallback = some cb)
    (h : receiverLoopBody (PollOutcome.payload u) b = some b1) :
    b1.invoked = b.invoked ++ [(cb, u)] := by
  unfold receiverLoopBody at h
  cases hcm : b.clientManager with
  | none => rw [hcm] at h; cases h
  | some cm =>
    rw [hcm] at h
    simp only [Option.some.injEq] at h
    subst h
    unfold handleUpdate
    split_ifs <;> simp [hcb]

lemma receiverLoopBody_no_payload (o : PollOutcome) (b b1 : Bridge)
    (ho : ∀ u, o ≠ PollOutcome.payload u)
    (h : receiverLoopBody o b = some b1) :
    b1.invoked = b.invoked ∧ b1.authorized = b.authorized ∧
    b1.currentAuthState = b.currentAuthState := by
  unfold receiverLoopBody at h
  cases hcm : b.clientManager with
  | none => rw [hcm] at h; cases h
  | some cm =>
    rw [hcm] at h
    cases o with
    | payload u => exact absurd rfl (ho u)
    | empty =>
      simp only [Option.some.injEq] at h
      subst h
      simp
    | error w =>
      simp only [Option.some.injEq] at h
      subst h
      simp

/-! ## Lemmas on the loop -/

lemma receiverLoop_stopped (os : List PollOutcome) (b : Bridge)
    (h : b.shouldRun = false) : receiverLoop os b = some b := by
  cases os <;> simp [receiverLoop, h]

lemma receiverLoop_cons_running (o : PollOutcome) (rest : List PollOutcome) (b : Bridge)
    (h : b.shouldRun = true) :
    receiverLoop (o :: rest) b = (receiverLoopBody o b).bind (receiverLoop rest) := by
  simp only [receiverLoop, h, ite_true]
  cases receiverLoopBody o b <;> rfl

lemma receiverLoop_append (xs ys : List PollOutcome) (b : Bridge) :
    receiverLoop (xs ++ ys) b = (receiverLoop xs b).bind (receiverLoop ys) := by
  induction xs generalizing b with
  | nil => simp [receiverLoop]
  | cons o rest ih =>
    cases hr : b.shouldRun with
    | false =>
      rw [receiverLoop_stopped _ _ hr, receiverLoop_stopped _ _ hr, Option.some_bind,
        receiverLoop_stopped _ _ hr]
    | true =>
      rw [List.cons_append, receiverLoop_cons_running _ _ _ hr,
        receiverLoop_cons_running _ _ _ hr]
      cases receiverLoopBody o b with
      | none => rfl
      | some b1 => simp only [Option.some_bind]; exact ih b1

lemma receiverLoop_frame (os : List PollOutcome) (b b1 : Bridge)
    (h : receiverLoop os b = some b1) :
    b1.shouldRun = b.shouldRun ∧ b1.clientId = b.clientId ∧
    b1.updateCallback = b.updateCallback ∧ b1.receiverThread = b.receiverThread ∧
    b1.joins = b.joins ∧ (b.authorized = true → b1.authorized = true) ∧
    (b.clientManager.isSome = true → b1.clientManager.isSome = true) := by
  induction os generalizing b with
  | nil =>
    simp only [receiverLoop, Option.some.injEq] at h
    subst h
    simp
  | cons o rest ih =>
    rcases Bool.eq_false_or_eq_true b.shouldRun with hr | hr
    · rw [receiverLoop_cons_running _ _ _ hr] at h
      cases hb : receiverLoopBody o b with
      | none => rw [hb] at h; cases h
      | some b2 =>
        rw [hb, Option.some_bind] at h
        obtain ⟨f1, f2, f3, f4, f5, f6, cm, _, f7⟩ := receiverLoopBody_frame o b b2 hb
        obtain ⟨g1, g2, g3, g4, g5, g6, g7⟩ := ih b2 h
        refine ⟨g1.trans f1, g2.trans f2, g3.trans f3, g4.trans f4, g5.trans f5,
          fun ha => g6 (f6 ha), fun _ => g7 ?_⟩
        rw [f7]; rfl
    · rw [receiverLoop_stopped _ _ hr, Option.some.injEq] at h
      subst h
      simp

lemma receiverLoop_isSome (os : List PollOutcome) (b : Bridge) (cm : ClientManager)
    (hcm : b.clientManager = some cm) : ∃ b1, receiverLoop os b = some b1 := by
  induction os generalizing b cm with
  | nil => exact ⟨b, rfl⟩
  | cons o rest ih =>
    cases hr : b.shouldRun with
    | false => exact ⟨b, receiverLoop_stopped _ _ hr⟩
    | true =>
      obtain ⟨b2, hb⟩ := receiverLoopBody_isSome o b cm hcm
      obtain ⟨_, _, _, _, _, _, cm2, _, f7⟩ := receiverLoopBody_frame o b b2 hb
      obtain ⟨b3, h3⟩ := ih b2 _ f7
      exact ⟨b3, by rw [receiverLoop_cons_running _ _ _ hr, hb, Option.some_bind, h3]⟩

lemma receiverLoop_invoked (os : List PollOutcome) (b : Bridge) (cm : ClientManager)
    (cb : Callback) (hcm : b.clientManager = some cm) (hr : b.shouldRun = true)
    (hcb : b.updateCallback = some cb) :
    ∃ b1, receiverLoop os b = some b1 ∧
      b1.invoked = b.invoked ++ (payloads os).map (fun u => (cb, u)) := by
  induction os generalizing b cm with
  | nil => exact ⟨b, rfl, by simp [payloads]⟩
  | cons o rest ih =>
    obtain ⟨b2, hb⟩ := receiverLoopBody_isSome o b cm hcm
    obtain ⟨f1, _, f3, _, _, _, cm2, _, f7⟩ := receiverLoopBody_frame o b b2 hb
    obtain ⟨b3, h3, hi⟩ := ih b2 _ f7 (f1.trans hr) (f3.trans hcb)
    refine ⟨b3, by rw [receiverLoop_cons_running _ _ _ hr, hb, Option.some_bind, h3], ?_⟩
    rw [hi]
    cases o with
    | payload u =>
      rw [receiverLoopBody_invoked_payload u b b2 cb hcb hb]
      simp [payloads]
    | empty =>
      rw [(receiverLoopBody_no_payload _ b b2 (fun u => by simp) hb).1]
      simp [payloads]
    | error w =>
      rw [(receiverLoopBody_no_payload _ b b2 (fun u => by simp) hb).1]
      simp [payloads]

lemma payloads_map_payload (us : List String) :
    payloads (us.map PollOutcome.payload) = us := by
  induction us with
  | nil => rfl
  | cons u rest ih => simp [payloads, ih]

/-! ## The claims -/

/-- C1 (defect of the code): on the spec's own example the bridge, once the loop has
processed the update "authorizationStateReady", is authorized but reports the state "ready"
instead of the update's payload, and one update later it still reports "ready".  The
documentation of `getAuthorizationState` promises the JSON text of the current state, which
is what the sibling branch of the loop stores for every other authorization state. -/
theorem ready_state_is_not_the_payload :
    Contains "authorizationStateReady" "authorizationStateReady" ∧
    (receiverLoop [PollOutcome.payload "authorizationStateWaitCode",
        PollOutcome.payload "authorizationStateReady"] registered).map isAuthorized
      = some true ∧
    (receiverLoop [PollOutcome.payload "authorizationStateWaitCode",
        PollOutcome.payload "authorizationStateReady"] registered).map getAuthorizationState
      = some "ready" ∧
    (receiverLoop [PollOutcome.payload "authorizationStateWaitCode",
        PollOutcome.payload "authorizationStateReady",
        PollOutcome.payload "updateNewMessage"] registered).map getAuthorizationState
      = some "ready" ∧
    (receiverLoop [PollOutcome.payload "authorizationStateWaitCode",
        PollOutcome.payload "authorizationStateReady",
        PollOutcome.payload "updateNewMessage"] registered).map getAuthorizationState
      ≠ some "authorizationStateReady" := by
  decide

/-- What the ready branch of the loop does as written: for every update whose payload
contains "authorizationStateReady", right after the running receiver loop has processed it
the bridge is authorized and the stored state is the literal "ready". -/
lemma ready_update_sets_authorized_and_ready (b : Bridge) (cm : ClientManager)
    (u : String) (hcm : b.clientManager = some cm) (hr : b.shouldRun = true)
    (hu : Contains u "authorizationStateReady") :
    ∃ b1, receiverLoop [PollOutcome.payload u] b = some b1 ∧
      isAuthorized b1 = true ∧ getAuthorizationState b1 = "ready" := by
  obtain ⟨b1, hb⟩ := receiverLoopBody_isSome (PollOutcome.payload u) b cm hcm
  refine ⟨b1, ?_, receiverLoopBody_ready u b b1 hu hb⟩
  rw [receiverLoop_cons_running _ _ _ hr, hb]
  rfl

/-- C6: for every update whose payload contains "authorizationState" but not
"authorizationStateReady", after the running receiver loop has processed it
`getAuthorizationState()` is exactly that payload and `isAuthorized()` is what it was
before. -/
theorem intermediate_update_sets_state (b : Bridge) (cm : ClientManager) (u : String)
    (hcm : b.clientManager = some cm) (hr : b.shouldRun = true)
    (hs : Contains u "authorizationState") (hu : ¬ Contains u "authorizationStateReady") :
    ∃ b1, receiverLoop [PollOutcome.payload u] b = some b1 ∧
      getAuthorizationState b1 = u ∧ isAuthorized b1 = isAuthorized b := by
  obtain ⟨b1, hb⟩ := receiverLoopBody_isSome (PollOutcome.payload u) b cm hcm
  obtain ⟨ha, hst⟩ := receiverLoopBody_intermediate u b b1 hs hu hb
  refine ⟨b1, ?_, hst, ha⟩
  rw [receiverLoop_cons_running _ _ _ hr, hb]
  rfl

/-- C6, witness: the spec's example bridge processing "authorizationStateWaitCode". -/
theorem intermediate_update_sets_state_witness :
    registered.clientManager = some { sent := [], executed := [], polls := 0 } ∧
    registered.shouldRun = true ∧
    Contains "authorizationStateWaitCode" "authorizationState" ∧
    ¬ Contains "authorizationStateWaitCode" "authorizationStateReady" ∧
    ∃ b1, receiverLoop [PollOutcome.payload "authorizationStateWaitCode"] registered
        = some b1 ∧
      getAuthorizationState b1 = "authorizationStateWaitCode" ∧
      isAuthorized b1 = isAuthorized registered :=
  ⟨rfl, rfl, by decide, by decide,
    intermediate_update_sets_state registered _ _ rfl rfl (by decide) (by decide)⟩

/-- C3: with a callback `cb` registered, for every finite sequence of poll outcomes served
to the running receiver loop the callback is called once per payload, in arrival order, with
that payload unchanged: the calls made are exactly the payloads received.  In particular for
a sequence made of updates only, whatever they do to the authorization state. -/
theorem callback_invoked_once_per_update (b : Bridge) (cm : ClientManager) (cb : Callback)
    (hcm : b.clientManager = some cm) (hr : b.shouldRun = true)
    (hcb : b.updateCallback = some cb) :
    (∀ os : List PollOutcome, ∃ b1, receiverLoop os b = some b1 ∧
      b1.updateCallback = some cb ∧
      b1.invoked = b.invoked ++ (payloads os).map (fun u => (cb, u))) ∧
    (∀ us : List String, ∃ b1, receiverLoop (us.map PollOutcome.payload) b = some b1 ∧
      b1.invoked = b.invoked ++ us.map (fun u => (cb, u))) := by
  constructor
  · intro os
    obtain ⟨b1, h1, hi⟩ := receiverLoop_invoked os b cm cb hcm hr hcb
    exact ⟨b1, h1, (receiverLoop_frame os b b1 h1).2.2.1.trans hcb, hi⟩
  · intro us
    obtain ⟨b1, h1, hi⟩ :=
      receiverLoop_invoked (us.map PollOutcome.payload) b cm cb hcm hr hcb
    rw [payloads_map_payload] at hi
    exact ⟨b1, h1, hi⟩

/-- C3, witness: the spec's example, three updates,
three calls of callback 0, in order. -/
theorem callback_invoked_once_per_update_witness :
    registered.clientManager = some { sent := [], executed := [], polls := 0 } ∧
    registered.shouldRun = true ∧ registered.updateCallback = some 0 ∧
    ∃ b1, receiverLoop (["authorizationStateWaitCode", "authorizationStateReady",
        "updateNewMessage"].map PollOutcome.payload) registered = some b1 ∧
      b1.invoked = registered.invoked ++
        ["authorizationStateWaitCode", "authorizationStateReady",
          "updateNewMessage"].map (fun u => ((0 : Callback), u)) :=
  ⟨rfl, rfl, rfl,
    (callback_invoked_once_per_update registered _ 0 rfl rfl rfl).2 _⟩

lemma shutdown_fields (b : Bridge) :
    (shutdown b).shouldRun = false ∧ (shutdown b).clientManager = b.clientManager ∧
    (shutdown b).clientId = b.clientId ∧ (shutdown b).authorized = b.authorized ∧
    (shutdown b).currentAuthState = b.currentAuthState ∧
    (shutdown b).updateCallback = b.updateCallback ∧
    (shutdown b).invoked = b.invoked ∧ (shutdown b).cerr = b.cerr := by
  unfold shutdown
  rcases b.receiverThread with _ | ⟨⟨_ | _⟩⟩ <;> simp

lemma step_frame (e : Event) (b : Bridge) (h : b.clientManager.isSome = true) :
    ∃ b1, step e b = some b1 ∧ b1.clientManager.isSome = true ∧
      b1.clientId = b.clientId ∧ (b.authorized = true → b1.authorized = true) := by
  obtain ⟨cm, hcm⟩ := Option.isSome_iff_exists.mp h
  cases e with
  | poll o =>
    obtain ⟨b1, h1⟩ := receiverLoop_isSome [o] b cm hcm
    obtain ⟨_, f2, _, _, _, f6, f7⟩ := receiverLoop_frame [o] b b1 h1
    exact ⟨b1, h1, f7 h, f2, f6⟩
  | send q => exact ⟨_, rfl, by simp [send, hcm], by simp [send, hcm], by simp [send, hcm]⟩
  | execute q r =>
    refine ⟨_, rfl, ?_, ?_, ?_⟩ <;> cases r <;> simp [execute, hcm]
  | receive r =>
    refine ⟨_, rfl, ?_, ?_, ?_⟩ <;> cases r <;> simp [receive, hcm]
  | setUpdateCallback cb => exact ⟨_, rfl, h, rfl, id⟩
  | shutdown =>
    obtain ⟨_, g2, g3, g4, _⟩ := shutdown_fields b
    exact ⟨_, rfl, by rw [g2]; exact h, g3, fun ha => g4.trans ha⟩

lemma run_frame (es : List Event) (b : Bridge) (h : b.clientManager.isSome = true) :
    ∃ b1, run es b = some b1 ∧ b1.clientManager.isSome = true ∧
      b1.clientId = b.clientId ∧ (b.authorized = true → b1.authorized = true) := by
  induction es generalizing b with
  | nil => exact ⟨b, rfl, h, rfl, id⟩
  | cons e rest ih =>
    obtain ⟨b1, h1, f1, f2, f3⟩ := step_frame e b h
    obtain ⟨b2, h2, g1, g2, g3⟩ := ih b1 f1
    exact ⟨b2, by simp only [run, h1, h2], g1, g2.trans f2, fun ha => g3 (f3 ha)⟩

/-! ## The claims, continued -/

/-- C5: the authorized flag is monotone.  From a state in which `isAuthorized()` is true,
whatever sequence of poll outcomes the receiver loop processes, and whatever interleaving of
loop iterations with calls of `send`, `execute`, `setUpdateCallback` and `shutdown` follows,
`isAuthorized()` is true afterwards. -/
theorem authorized_monotone (b : Bridge) (cm : ClientManager)
    (hcm : b.clientManager = some cm) (ha : isAuthorized b = true) :
    (∀ os : List PollOutcome, ∃ b1, receiverLoop os b = some b1 ∧ isAuthorized b1 = true) ∧
    (∀ es : List Event, ∃ b1, run es b = some b1 ∧ isAuthorized b1 = true) := by
  constructor
  · intro os
    obtain ⟨b1, h1⟩ := receiverLoop_isSome os b cm hcm
    exact ⟨b1, h1, (receiverLoop_frame os b b1 h1).2.2.2.2.2.1 ha⟩
  · intro es
    obtain ⟨b1, h1, _, _, f3⟩ := run_frame es b (by rw [hcm]; rfl)
    exact ⟨b1, h1, f3 ha⟩

/-- C5, witness: an authorized bridge that then sees a logout update,
a failed poll, calls of every public operation and an attempted poll after shutdown. -/
theorem authorized_monotone_witness :
    ∃ b0, receiverLoop [PollOutcome.payload "authorizationStateReady"] registered = some b0 ∧
      isAuthorized b0 = true ∧
      ∃ b1, run [Event.poll (PollOutcome.payload "authorizationStateClosed"),
          Event.poll (PollOutcome.error "timeout"), Event.send "logOut",
          Event.execute "getOption" none, Event.setUpdateCallback none, Event.shutdown,
          Event.poll PollOutcome.empty] b0 = some b1 ∧
        isAuthorized b1 = true :=
  ⟨_, rfl, by decide,
    (authorized_monotone _ { sent := [], executed := [], polls := 1 } rfl (by decide)).2 _⟩

/-- C7: with the engine handle present, `send(q)` returns the bridge's client id for every
query, appends exactly the pair (client id, q) to what the engine has been sent and changes
nothing else; the client id is the same after any interleaving of loop iterations and public
calls, so every later `send` returns that same value. -/
theorem send_returns_client_id (b : Bridge) (cm : ClientManager) (q : String)
    (hcm : b.clientManager = some cm) :
    (send q b).1 = b.clientId ∧
    (send q b).2 =
      { b with clientManager := some { cm with sent := cm.sent ++ [(b.clientId, q)] } } ∧
    (∀ es : List Event, ∃ b1, run es b = some b1 ∧ b1.clientId = b.clientId ∧
      ∀ q1 : String, (send q1 b1).1 = b.clientId) := by
  refine ⟨by simp [send, hcm], by simp [send, hcm], ?_⟩
  intro es
  obtain ⟨b1, h1, f1, f2, _⟩ := run_frame es b (by rw [hcm]; rfl)
  obtain ⟨cm1, hcm1⟩ := Option.isSome_iff_exists.mp f1
  exact ⟨b1, h1, f2, fun q1 => by simp [send, hcm1, f2]⟩

/-- C7, witness: the empty query sent on a freshly constructed bridge with client id 7. -/
theorem send_returns_client_id_witness :
    (construct 7).clientManager = some { sent := [], executed := [], polls := 0 } ∧
    (send "" (construct 7)).1 = 7 ∧
    (send "" (construct 7)).2.clientManager
      = some { sent := [(7, "")], executed := [], polls := 0 } :=
  ⟨rfl, (send_returns_client_id (construct 7) _ "" rfl).1,
    by rw [(send_returns_client_id (construct 7) _ "" rfl).2.1]; rfl⟩

/-- C8: `shutdown()` is idempotent.  For every bridge state a second call leaves the whole
state, the count of joins included, exactly as the first call left it; the first call
leaves the running flag cleared and the receiver thread, if any, not joinable. -/
theorem shutdown_idempotent (b : Bridge) :
    shutdown (shutdown b) = shutdown b ∧
    (shutdown (shutdown b)).joins = (shutdown b).joins ∧
    (shutdown b).shouldRun = false ∧
    (shutdown b).receiverThread = b.receiverThread.map (fun _ => { joinable := false }) := by
  unfold shutdown
  rcases b.receiverThread with _ | ⟨⟨_ | _⟩⟩ <;> simp

/-- C2 (as stated, refuted): on a freshly constructed bridge with client id 1, `send`
issued after `shutdown()` returns 1, not -1, and the query reaches the engine. -/
theorem send_after_shutdown_returns_client_id :
    (send "getMe" (shutdown (construct 1))).1 = 1 ∧
    (send "getMe" (shutdown (construct 1))).1 ≠ -1 ∧
    (send "getMe" (shutdown (construct 1))).2.clientManager
      = some { sent := [(1, "getMe")], executed := [], polls := 0 } := by
  decide

/-- C2 (amended): `shutdown()` leaves the engine handle as it was, so `send(q)` issued
after `shutdown()` returns what it would have returned before: the client id when the handle
is present, the failure value -1 when it is absent. -/
theorem send_after_shutdown (b : Bridge) (q : String) :
    (shutdown b).clientManager = b.clientManager ∧
    (send q (shutdown b)).1 = (send q b).1 ∧
    (send q (shutdown b)).1 =
      (match b.clientManager with
        | some _ => b.clientId
        | none => -1) := by
  obtain ⟨_, g2, g3, _⟩ := shutdown_fields b
  rcases hcm : b.clientManager with _ | cm <;> simp [send, g2, g3, hcm]

/-! ## Lemmas on the receiver thread and foreign code -/

lemma Machine.shutdown_not_joinable (c : Cycle) (m : Machine)
    (h : m.bridge.receiverThread ≠ some { joinable := true }) :
    Machine.shutdown c m = some { m with bridge := { m.bridge with shouldRun := false } } := by
  unfold Machine.shutdown
  simp only []
  obtain hthr | ⟨t, hthr⟩ := Option.eq_none_or_eq_some m.bridge.receiverThread
  · simp only [hthr]
  · obtain ⟨j⟩ := t
    cases j with
    | true => exact absurd hthr h
    | false => simp [hthr]

lemma Machine.shutdown_joinable (c : Cycle) (m : Machine)
    (h : m.bridge.receiverThread = some { joinable := true }) :
    Machine.shutdown c m =
      (join c { m with bridge := { m.bridge with shouldRun := false } }).map
        (fun m2 =>
          if m2.pos = LoopPos.terminated then m2
          else
            { m2 with
              bridge := { m2.bridge with
                receiverThread := some { joinable := false }
                joins := m2.bridge.joins + 1 } }) := by
  unfold Machine.shutdown
  simp only [h, ite_true]
  split
  · next hjoin => rw [hjoin]; rfl
  · next m2 hjoin =>
    rw [hjoin]
    by_cases ht : m2.pos = LoopPos.terminated <;> simp [ht]

/-- With a callback that makes no call and returns, an iteration is `receiverLoopBody`. -/
lemma cycle_quiet (o : PollOutcome) (b : Bridge) :
    cycle (Cycle.polled o { calls := [], ends := Completion.returned }) b
      = (receiverLoopBody o b).map (fun b1 => (false, b1)) := by
  simp only [cycle]
  cases h : receiverLoopBody o b with
  | none => rfl
  | some b1 => cases o <;> cases hcb : b.updateCallback <;> simp [runCallback]

/-- With no iteration under way, `shutdown` does to the bridge what the first description
says. -/
lemma Machine.shutdown_bridge (c : Cycle) (m : Machine)
    (hp : m.pos = LoopPos.atTest ∨ m.pos = LoopPos.left) :
    (Machine.shutdown c m).map (fun m1 => m1.bridge) = some (TdBridge.shutdown m.bridge) := by
  by_cases hthr : m.bridge.receiverThread = some { joinable := true }
  · rw [Machine.shutdown_joinable c m hthr]
    rcases hp with hp | hp <;>
      simp [join, loopTest, hp, TdBridge.shutdown, hthr]
  · rw [Machine.shutdown_not_joinable c m hthr]
    obtain hn | ⟨⟨j⟩, hs⟩ := Option.eq_none_or_eq_some m.bridge.receiverThread
    · simp [TdBridge.shutdown, hn]
    · cases j with
      | true => exact absurd hs hthr
      | false => simp [TdBridge.shutdown, hs]

/-! ## The claims on the receiver thread -/

end TdBridge
